import Mathlib

/-
Verification of the Skylight trajectory & animation engine (web/app.js).

The engine turns sparse flight snapshots into smooth screen-space journeys:
it projects geographic coordinates to the screen, plans a trajectory per
entity (start, boundary exit point, optional quadratic curve, duration),
advances progress each animation tick, and renders fading trails.

Numbers are modelled exactly: the JavaScript floating-point arithmetic is
embedded over a linear ordered field (instantiated at ℚ where everything is
executable, and at ℝ where the source uses trigonometry and square roots).
JavaScript's `Infinity` sentinel for the running minimum distance is
modelled by `Option` (`none` = no candidate yet / non-finite result).
-/

namespace Skylight

/-- The Bounding Region: `config.bounds` (web/app.js lines 30-39),
min/max latitude and longitude of the visible area. -/
structure Bounds (α : Type) where
  minLat : α
  maxLat : α
  minLon : α
  maxLon : α

variable {α : Type} [LinearOrderedField α]

/-- One guarded update of the running minimum parametric distance:
JS `if (t > 0 && t < minT) minT = t;` with `minT` initially `Infinity`
(modelled as `none`). -/
def updateMin (minT : Option α) (t : α) : Option α :=
  match minT with
  | none => if 0 < t then some t else none
  | some m => if 0 < t ∧ t < m then some t else some m

/-- One edge of the exit-point search (web/app.js lines 74-93): the edge is
considered only when the sign condition on the heading component holds,
e.g. `if (dLat > 0) { const t = (maxLat - startLat) / dLat; ... }`. -/
def edgeStep (m : Option α) (c : Prop) [Decidable c] (t : α) : Option α :=
  if c then updateMin m t else m

/-- The exit-point search of `calculateExitPoint` (web/app.js lines 72-93):
starting from `minT = Infinity` (`none`), the four edges are examined in
source order (top `maxLat`, bottom `minLat`, right `maxLon`, left `minLon`),
each guarded by the sign of the corresponding direction component, and the
minimum positive parametric distance is kept. -/
def exitMinT (b : Bounds α) (startLat startLon dLat dLon : α) : Option α :=
  edgeStep (edgeStep (edgeStep (edgeStep (none : Option α)
      (0 < dLat) ((b.maxLat - startLat) / dLat))
      (dLat < 0) ((b.minLat - startLat) / dLat))
      (0 < dLon) ((b.maxLon - startLon) / dLon))
      (dLon < 0) ((b.minLon - startLon) / dLon)

/-- `calculateExitPoint` (web/app.js lines 61-107), geometry part: the exit
point `(startLat + dLat * minT, startLon + dLon * minT)`.  When the search
finds no forward intersection the JS `minT` stays `Infinity` and the computed
coordinates are non-finite; this is modelled as `none`. -/
def calculateExitPoint (b : Bounds α) (startLat startLon dLat dLon : α) :
    Option (α × α) :=
  (exitMinT b startLat startLon dLat dLon).map
    fun t => (startLat + dLat * t, startLon + dLon * t)

/-- Projector, geo → screen (web/app.js lines 45-50):
`x = ((lon - minLon) / (maxLon - minLon)) * window.innerWidth`,
`y = (1 - (lat - minLat) / (maxLat - minLat)) * window.innerHeight`. -/
def latLonToScreen (b : Bounds α) (w h lat lon : α) : α × α :=
  (((lon - b.minLon) / (b.maxLon - b.minLon)) * w,
   (1 - (lat - b.minLat) / (b.maxLat - b.minLat)) * h)

/-- Projector, screen → geo (web/app.js lines 52-57), returning `(lat, lon)`:
`lon = (x / window.innerWidth) * (maxLon - minLon) + minLon`,
`lat = (1 - y / window.innerHeight) * (maxLat - minLat) + minLat`. -/
def screenToLatLon (b : Bounds α) (w h x y : α) : α × α :=
  ((1 - y / h) * (b.maxLat - b.minLat) + b.minLat,
   (x / w) * (b.maxLon - b.minLon) + b.minLon)

/-- Quadratic Bézier `P = (1-t)²P0 + 2(1-t)tP1 + t²P2`
(web/app.js lines 122-125, written exactly as `mt*mt*p0 + 2*mt*t*p1 + t*t*p2`). -/
def quadraticBezier (t p0 p1 p2 : α) : α :=
  (1 - t) * (1 - t) * p0 + 2 * (1 - t) * t * p1 + t * t * p2

/-- The easing actually applied per frame (web/app.js lines 116-118, used at
line 318): identity, for constant speed. -/
def linear (t : α) : α := t

section ExitLemmas

lemma updateMin_some_elim {m : Option α} {t u : α} (h : updateMin m t = some u) :
    (0 < t ∧ u = t) ∨ m = some u := by
  cases m with
  | none =>
    simp only [updateMin] at h
    by_cases ht : 0 < t
    · rw [if_pos ht] at h
      exact Or.inl ⟨ht, (Option.some_injective α h).symm⟩
    · rw [if_neg ht] at h
      simp at h
  | some v =>
    simp only [updateMin] at h
    by_cases htv : 0 < t ∧ t < v
    · rw [if_pos htv] at h
      exact Or.inl ⟨htv.1, (Option.some_injective α h).symm⟩
    · rw [if_neg htv] at h
      exact Or.inr h

lemma updateMin_ne_none {m : Option α} (t : α) (h : m ≠ none) :
    updateMin m t ≠ none := by
  cases m with
  | none => exact absurd rfl h
  | some v =>
    simp only [updateMin]
    split <;> simp

lemma updateMin_none_pos {t : α} (ht : 0 < t) :
    updateMin (none : Option α) t = some t := by
  unfold updateMin
  rw [if_pos ht]

lemma edgeStep_ne_none {m : Option α} {c : Prop} [Decidable c] {t : α}
    (h : m ≠ none) : edgeStep m c t ≠ none := by
  unfold edgeStep
  split
  · exact updateMin_ne_none t h
  · exact h

lemma edgeStep_some_elim {m : Option α} {c : Prop} [Decidable c] {t u : α}
    (h : edgeStep m c t = some u) : (c ∧ 0 < t ∧ u = t) ∨ m = some u := by
  unfold edgeStep at h
  split at h
  next hc =>
    rcases updateMin_some_elim h with ⟨ht, hu⟩ | hm
    · exact Or.inl ⟨hc, ht, hu⟩
    · exact Or.inr hm
  next => exact Or.inr h

lemma edgeStep_pos {m : Option α} {c : Prop} [Decidable c] {t : α} (hc : c) :
    edgeStep m c t = updateMin m t := if_pos hc

lemma edgeStep_neg {m : Option α} {c : Prop} [Decidable c] {t : α} (hc : ¬c) :
    edgeStep m c t = m := if_neg hc

/-- Soundness of the exit-point search: a found `minT` is positive and is the
parametric distance to one of the four edges, with the matching sign guard. -/
lemma exitMinT_spec {b : Bounds α} {sLat sLon dLat dLon t : α}
    (h : exitMinT b sLat sLon dLat dLon = some t) :
    0 < t ∧ ((0 < dLat ∧ t = (b.maxLat - sLat) / dLat) ∨
             (dLat < 0 ∧ t = (b.minLat - sLat) / dLat) ∨
             (0 < dLon ∧ t = (b.maxLon - sLon) / dLon) ∨
             (dLon < 0 ∧ t = (b.minLon - sLon) / dLon)) := by
  unfold exitMinT at h
  rcases edgeStep_some_elim h with ⟨hc, hp, rfl⟩ | h
  · exact ⟨hp, Or.inr (Or.inr (Or.inr ⟨hc, rfl⟩))⟩
  rcases edgeStep_some_elim h with ⟨hc, hp, rfl⟩ | h
  · exact ⟨hp, Or.inr (Or.inr (Or.inl ⟨hc, rfl⟩))⟩
  rcases edgeStep_some_elim h with ⟨hc, hp, rfl⟩ | h
  · exact ⟨hp, Or.inr (Or.inl ⟨hc, rfl⟩)⟩
  rcases edgeStep_some_elim h with ⟨hc, hp, rfl⟩ | h
  · exact ⟨hp, Or.inl ⟨hc, rfl⟩⟩
  · simp at h

/-- Existence: for a start strictly inside the region and a direction with a
nonzero component, the search always finds a forward intersection. -/
lemma exitMinT_exists {b : Bounds α} {sLat sLon dLat dLon : α}
    (h1 : b.minLat < sLat) (h2 : sLat < b.maxLat)
    (h3 : b.minLon < sLon) (h4 : sLon < b.maxLon)
    (hd : dLat ≠ 0 ∨ dLon ≠ 0) :
    ∃ t, exitMinT b sLat sLon dLat dLon = some t := by
  rw [← Option.ne_none_iff_exists']
  unfold exitMinT
  rcases lt_trichotomy dLat 0 with hneg | hzero | hpos
  · apply edgeStep_ne_none
    apply edgeStep_ne_none
    rw [edgeStep_neg (not_lt.mpr hneg.le), edgeStep_pos hneg,
      updateMin_none_pos (div_pos_iff.mpr (Or.inr ⟨sub_neg.mpr h1, hneg⟩))]
    exact Option.some_ne_none _
  · have hdlon : dLon ≠ 0 := by
      rcases hd with h | h
      · exact absurd hzero h
      · exact h
    have hT : ¬(0 < dLat) := by rw [hzero]; exact lt_irrefl 0
    have hB : ¬(dLat < 0) := by rw [hzero]; exact lt_irrefl 0
    rw [edgeStep_neg hT, edgeStep_neg hB]
    rcases hdlon.lt_or_lt with hlneg | hlpos
    · rw [edgeStep_neg (not_lt.mpr hlneg.le), edgeStep_pos hlneg,
        updateMin_none_pos (div_pos_iff.mpr (Or.inr ⟨sub_neg.mpr h3, hlneg⟩))]
      exact Option.some_ne_none _
    · apply edgeStep_ne_none
      rw [edgeStep_pos hlpos,
        updateMin_none_pos (div_pos (sub_pos.mpr h4) hlpos)]
      exact Option.some_ne_none _
  · apply edgeStep_ne_none
    apply edgeStep_ne_none
    apply edgeStep_ne_none
    rw [edgeStep_pos hpos,
      updateMin_none_pos (div_pos (sub_pos.mpr h2) hpos)]
    exact Option.some_ne_none _

lemma add_mul_div_self {a d x : α} (hd : d ≠ 0) : a + d * ((x - a) / d) = x := by
  field_simp

/-- Full specification of a successful exit-point computation: the exit point
exists, lies on the region boundary, and the direction from start to exit has
the sign of each direction component. -/
lemma exit_point_spec {b : Bounds α} {sLat sLon dLat dLon : α}
    (h1 : b.minLat < sLat) (h2 : sLat < b.maxLat)
    (h3 : b.minLon < sLon) (h4 : sLon < b.maxLon)
    (hd : dLat ≠ 0 ∨ dLon ≠ 0) :
    ∃ e : α × α, calculateExitPoint b sLat sLon dLat dLon = some e ∧
      (e.1 = b.maxLat ∨ e.1 = b.minLat ∨ e.2 = b.maxLon ∨ e.2 = b.minLon) ∧
      (0 < dLat → sLat < e.1) ∧ (dLat < 0 → e.1 < sLat) ∧ (dLat = 0 → e.1 = sLat) ∧
      (0 < dLon → sLon < e.2) ∧ (dLon < 0 → e.2 < sLon) ∧ (dLon = 0 → e.2 = sLon) := by
  obtain ⟨t, ht⟩ := exitMinT_exists h1 h2 h3 h4 hd
  obtain ⟨htpos, hmem⟩ := exitMinT_spec ht
  refine ⟨(sLat + dLat * t, sLon + dLon * t), ?_, ?_, ?_, ?_, ?_, ?_, ?_, ?_⟩
  · rw [calculateExitPoint, ht, Option.map_some']
  · rcases hmem with ⟨hdp, rfl⟩ | ⟨hdn, rfl⟩ | ⟨hdp, rfl⟩ | ⟨hdn, rfl⟩
    · exact Or.inl (add_mul_div_self hdp.ne')
    · exact Or.inr (Or.inl (add_mul_div_self hdn.ne))
    · exact Or.inr (Or.inr (Or.inl (add_mul_div_self hdp.ne')))
    · exact Or.inr (Or.inr (Or.inr (add_mul_div_self hdn.ne)))
  · intro hp
    have := mul_pos hp htpos
    simp only
    linarith
  · intro hn
    have := mul_pos_of_neg_of_neg hn (neg_neg_of_pos htpos)
    have := mul_neg_of_neg_of_pos hn htpos
    simp only
    linarith
  · intro hz
    simp [hz]
  · intro hp
    have := mul_pos hp htpos
    simp only
    linarith
  · intro hn
    have := mul_neg_of_neg_of_pos hn htpos
    simp only
    linarith
  · intro hz
    simp [hz]

end ExitLemmas

/-- Heading decomposition of `calculateExitPoint` (web/app.js lines 64-69):
`headingRad = headingDeg * π / 180`, direction vector
`(dLat, dLon) = (cos headingRad, sin headingRad)` (0° = North, 90° = East). -/
noncomputable def headingDir (headingDeg : ℝ) : ℝ × ℝ :=
  (Real.cos (headingDeg * Real.pi / 180), Real.sin (headingDeg * Real.pi / 180))

lemma headingDir_ne_zero (headingDeg : ℝ) :
    (headingDir headingDeg).1 ≠ 0 ∨ (headingDir headingDeg).2 ≠ 0 := by
  by_contra h
  push_neg at h
  have hpyth := Real.sin_sq_add_cos_sq (headingDeg * Real.pi / 180)
  rw [show Real.sin (headingDeg * Real.pi / 180) = 0 from h.2,
    show Real.cos (headingDeg * Real.pi / 180) = 0 from h.1] at hpyth
  norm_num at hpyth

/-- The fallback Bounding Region from `loadConfig` (web/app.js lines 30-39),
over ℚ. -/
def defaultBounds : Bounds ℚ :=
  { minLat := 51.1729712
    maxLat := 51.6729712
    minLon := -0.5041772
    maxLon := 0.3958228 }

/-- The same fallback Bounding Region over ℝ. -/
noncomputable def defaultBoundsR : Bounds ℝ :=
  { minLat := 51.1729712
    maxLat := 51.6729712
    minLon := -0.5041772
    maxLon := 0.3958228 }

/-- Approximate journey length in metres (web/app.js lines 99-104):
equirectangular approximation, longitude scaled by the cosine of the start
latitude, one degree ≈ 111000 m. -/
noncomputable def distanceMeters (startLat startLon exitLat exitLon : ℝ) : ℝ :=
  Real.sqrt ((exitLat - startLat) ^ 2 +
    ((exitLon - startLon) * Real.cos (startLat * Real.pi / 180)) ^ 2) * 111000

/-- `planeData.velocity_mps || 200` (web/app.js line 416): a zero or missing
reported speed falls back to the default cruise speed of 200 m/s. -/
def effectiveVelocity (v : Option ℚ) : ℚ :=
  match v with
  | none => 200
  | some x => if x = 0 then 200 else x

/-- `durationMs = (exit.distanceMeters / velocityMps / speedMultiplier) * 1000`
with `speedMultiplier = 3` (web/app.js lines 421-424). -/
noncomputable def durationMs (startLat startLon exitLat exitLon : ℝ)
    (v : Option ℚ) : ℝ :=
  distanceMeters startLat startLon exitLat exitLon /
    (effectiveVelocity v : ℝ) / 3 * 1000

/-- C1: for every start strictly inside the Bounding Region and every heading,
the exit point computed by `calculateExitPoint` (intersecting the heading ray
with the four edges, skipping edges whose axis has a zero heading component,
and taking the minimum positive parametric distance) exists, has at least one
coordinate equal to one of the region's four edge values, and the direction
from start to exit matches the heading's quadrant: each coordinate moves with
the sign of the corresponding component of the heading's direction vector. -/
theorem exit_point_on_boundary (b : Bounds ℝ) (sLat sLon headingDeg : ℝ)
    (h1 : b.minLat < sLat) (h2 : sLat < b.maxLat)
    (h3 : b.minLon < sLon) (h4 : sLon < b.maxLon) :
    ∃ e : ℝ × ℝ,
      calculateExitPoint b sLat sLon (headingDir headingDeg).1
        (headingDir headingDeg).2 = some e ∧
      (e.1 = b.maxLat ∨ e.1 = b.minLat ∨ e.2 = b.maxLon ∨ e.2 = b.minLon) ∧
      (0 < (headingDir headingDeg).1 → sLat < e.1) ∧
      ((headingDir headingDeg).1 < 0 → e.1 < sLat) ∧
      ((headingDir headingDeg).1 = 0 → e.1 = sLat) ∧
      (0 < (headingDir headingDeg).2 → sLon < e.2) ∧
      ((headingDir headingDeg).2 < 0 → e.2 < sLon) ∧
      ((headingDir headingDeg).2 = 0 → e.2 = sLon) :=
  exit_point_spec h1 h2 h3 h4 (headingDir_ne_zero headingDeg)

/-- Witness for C1 at the default region, the home position, heading 90°
(due east). -/
theorem exit_point_on_boundary_witness :
    ∃ e : ℝ × ℝ,
      calculateExitPoint defaultBoundsR 51.4229712 (-0.0541772)
        (headingDir 90).1 (headingDir 90).2 = some e ∧
      (e.1 = defaultBoundsR.maxLat ∨ e.1 = defaultBoundsR.minLat ∨
        e.2 = defaultBoundsR.maxLon ∨ e.2 = defaultBoundsR.minLon) ∧
      (0 < (headingDir 90).1 → 51.4229712 < e.1) ∧
      ((headingDir 90).1 < 0 → e.1 < 51.4229712) ∧
      ((headingDir 90).1 = 0 → e.1 = 51.4229712) ∧
      (0 < (headingDir 90).2 → -0.0541772 < e.2) ∧
      ((headingDir 90).2 < 0 → e.2 < -0.0541772) ∧
      ((headingDir 90).2 = 0 → e.2 = -0.0541772) :=
  exit_point_on_boundary defaultBoundsR 51.4229712 (-0.0541772) 90
    (by norm_num [defaultBoundsR]) (by norm_num [defaultBoundsR])
    (by norm_num [defaultBoundsR]) (by norm_num [defaultBoundsR])

/-- C2 counterexample: at start (52, 1) — north-east of the default region —
with the unit direction (3/5, 4/5) (a valid heading, both components
positive), no edge is crossed in the forward direction, and the code produces
no fallback exit point at all: the running minimum stays `Infinity` (`none`)
and `calculateExitPoint` yields no finite coordinates, rather than the
farthest rectangle corner (maxLat, maxLon) the claim promises. -/
theorem no_intersection_counterexample :
    exitMinT defaultBounds 52 1 (3 / 5) (4 / 5) = none ∧
    calculateExitPoint defaultBounds 52 1 (3 / 5) (4 / 5) ≠
      some (defaultBounds.maxLat, defaultBounds.maxLon) := by
  have h : exitMinT defaultBounds 52 1 (3 / 5) (4 / 5) = none := by
    rw [exitMinT,
      edgeStep_pos (by norm_num : (0:ℚ) < 3 / 5),
      edgeStep_neg (by norm_num : ¬((3:ℚ) / 5 < 0)),
      edgeStep_pos (by norm_num : (0:ℚ) < 4 / 5),
      edgeStep_neg (by norm_num : ¬((4:ℚ) / 5 < 0))]
    rw [show updateMin (none : Option ℚ)
          ((defaultBounds.maxLat - 52) / (3 / 5)) = none by
        rw [updateMin.eq_def]
        simp only
        rw [if_neg]
        norm_num [defaultBounds]]
    rw [updateMin.eq_def]
    simp only
    rw [if_neg]
    norm_num [defaultBounds]
  refine ⟨h, ?_⟩
  rw [calculateExitPoint, h]
  simp

/-- C2 (amended): if the exit-point search finds no forward intersection the
planner does not fall back to a rectangle corner — it produces no finite exit
point at all; such a situation can never arise for a start strictly inside
the region with a direction that has a nonzero component (in particular for
any real heading), where a positive forward intersection always exists. -/
theorem no_intersection_behavior (b : Bounds ℚ) (sLat sLon dLat dLon : ℚ) :
    (exitMinT b sLat sLon dLat dLon = none →
      calculateExitPoint b sLat sLon dLat dLon = none) ∧
    (b.minLat < sLat → sLat < b.maxLat → b.minLon < sLon → sLon < b.maxLon →
      (dLat ≠ 0 ∨ dLon ≠ 0) →
      ∃ t, 0 < t ∧ exitMinT b sLat sLon dLat dLon = some t) := by
  constructor
  · intro h
    rw [calculateExitPoint, h]
    rfl
  · intro h1 h2 h3 h4 hd
    obtain ⟨t, ht⟩ := exitMinT_exists h1 h2 h3 h4 hd
    exact ⟨t, (exitMinT_spec ht).1, ht⟩

/-- Witness for the amended C2: both conjuncts applied at concrete inputs —
the no-intersection input of the counterexample, and the home position with
direction due north. -/
theorem no_intersection_behavior_witness :
    calculateExitPoint defaultBounds 52 1 (3 / 5) (4 / 5) = none ∧
    ∃ t, 0 < t ∧
      exitMinT defaultBounds 51.4229712 (-0.0541772) 1 0 = some t := by
  constructor
  · apply (no_intersection_behavior defaultBounds 52 1 (3 / 5) (4 / 5)).1
    rw [exitMinT,
      edgeStep_pos (by norm_num : (0:ℚ) < 3 / 5),
      edgeStep_neg (by norm_num : ¬((3:ℚ) / 5 < 0)),
      edgeStep_pos (by norm_num : (0:ℚ) < 4 / 5),
      edgeStep_neg (by norm_num : ¬((4:ℚ) / 5 < 0))]
    rw [show updateMin (none : Option ℚ)
          ((defaultBounds.maxLat - 52) / (3 / 5)) = none by
        rw [updateMin.eq_def]
        simp only
        rw [if_neg]
        norm_num [defaultBounds]]
    rw [updateMin.eq_def]
    simp only
    rw [if_neg]
    norm_num [defaultBounds]
  · exact (no_intersection_behavior defaultBounds 51.4229712 (-0.0541772) 1 0).2
      (by norm_num [defaultBounds]) (by norm_num [defaultBounds])
      (by norm_num [defaultBounds]) (by norm_num [defaultBounds])
      (Or.inl one_ne_zero)

/-- C6: a zero or missing reported speed is replaced by the default cruise
speed of 200 m/s, and for every start strictly inside the region (at a
geographically valid latitude) and every heading the planned duration is a
positive, well-defined (finite, non-NaN in the exact model) number: the speed
divisor is never zero and the distance is a positive real. -/
theorem default_speed_duration_positive (b : Bounds ℝ)
    (sLat sLon headingDeg : ℝ) (v : Option ℚ)
    (h1 : b.minLat < sLat) (h2 : sLat < b.maxLat)
    (h3 : b.minLon < sLon) (h4 : sLon < b.maxLon)
    (hlat1 : -90 < sLat) (hlat2 : sLat < 90)
    (hv : v = none ∨ v = some 0) :
    effectiveVelocity v = 200 ∧
    ∃ e : ℝ × ℝ,
      calculateExitPoint b sLat sLon (headingDir headingDeg).1
          (headingDir headingDeg).2 = some e ∧
      0 < durationMs sLat sLon e.1 e.2 v := by
  have hv200 : effectiveVelocity v = 200 := by
    rcases hv with rfl | rfl <;> simp [effectiveVelocity]
  refine ⟨hv200, ?_⟩
  obtain ⟨t, ht⟩ :=
    exitMinT_exists h1 h2 h3 h4 (headingDir_ne_zero headingDeg)
  obtain ⟨htpos, -⟩ := exitMinT_spec ht
  refine ⟨((sLat + (headingDir headingDeg).1 * t,
      sLon + (headingDir headingDeg).2 * t) : ℝ × ℝ),
    by rw [calculateExitPoint, ht, Option.map_some'], ?_⟩
  have hcos : 0 < Real.cos (sLat * Real.pi / 180) := by
    apply Real.cos_pos_of_mem_Ioo
    constructor
    · calc -(Real.pi / 2) = (-90 : ℝ) * (Real.pi / 180) := by ring
        _ < sLat * (Real.pi / 180) :=
          mul_lt_mul_of_pos_right hlat1 (by positivity)
        _ = sLat * Real.pi / 180 := by ring
    · calc sLat * Real.pi / 180 = sLat * (Real.pi / 180) := by ring
        _ < (90 : ℝ) * (Real.pi / 180) :=
          mul_lt_mul_of_pos_right hlat2 (by positivity)
        _ = Real.pi / 2 := by ring
  have hS : 0 < (sLat + (headingDir headingDeg).1 * t - sLat) ^ 2 +
      ((sLon + (headingDir headingDeg).2 * t - sLon) *
        Real.cos (sLat * Real.pi / 180)) ^ 2 := by
    rw [show sLat + (headingDir headingDeg).1 * t - sLat =
        (headingDir headingDeg).1 * t from by ring,
      show sLon + (headingDir headingDeg).2 * t - sLon =
        (headingDir headingDeg).2 * t from by ring]
    rcases headingDir_ne_zero headingDeg with hc | hs
    · exact add_pos_of_pos_of_nonneg
        (pow_two_pos_of_ne_zero (mul_ne_zero hc htpos.ne')) (sq_nonneg _)
    · exact add_pos_of_nonneg_of_pos (sq_nonneg _)
        (pow_two_pos_of_ne_zero
          (mul_ne_zero (mul_ne_zero hs htpos.ne') hcos.ne'))
  have hdist : 0 < distanceMeters sLat sLon
      (sLat + (headingDir headingDeg).1 * t)
      (sLon + (headingDir headingDeg).2 * t) := by
    rw [distanceMeters]
    exact mul_pos (Real.sqrt_pos.mpr hS) (by norm_num)
  rw [durationMs, hv200]
  exact mul_pos (div_pos (div_pos hdist (by norm_num)) (by norm_num))
    (by norm_num)

/-- Witness for C6 at the default region, the home position, heading 180°
(due south), with a reported speed of zero. -/
theorem default_speed_duration_positive_witness :
    effectiveVelocity (some 0) = 200 ∧
    ∃ e : ℝ × ℝ,
      calculateExitPoint defaultBoundsR 51.4229712 (-0.0541772)
          (headingDir 180).1 (headingDir 180).2 = some e ∧
      0 < durationMs 51.4229712 (-0.0541772) e.1 e.2 (some 0) :=
  default_speed_duration_positive defaultBoundsR 51.4229712 (-0.0541772) 180
    (some 0)
    (by norm_num [defaultBoundsR]) (by norm_num [defaultBoundsR])
    (by norm_num [defaultBoundsR]) (by norm_num [defaultBoundsR])
    (by norm_num) (by norm_num) (Or.inr rfl)

/-- Per-tick progress (web/app.js lines 313-314):
`progress = Math.min(elapsed / duration, 1)`. -/
def progressOf (elapsed duration : ℚ) : ℚ :=
  min (elapsed / duration) 1

/-- One Snapshot Sample of the external feed (an element of `data.planes`
consumed in web/app.js lines 402-416): id, position, heading, optional
reported speed, display attributes. -/
structure Sample where
  id : String
  lat : ℚ
  lon : ℚ
  heading : ℚ
  velocity : Option ℚ
  callsign : String
  country : String
  color : String

/-- Per-entity trajectory state (web/app.js lines 431-459).  The screen-space
caches (`screenPos`, `startScreenPos`, `trailPoints`, `lastTrailProgress`)
and the DOM element are presentation-side derivatives of
`lat`/`lon`/`progress` and the Projector, and the display heading for curved
paths (the `Math.atan2` tangent sample, line 331) is likewise
presentation-only; they carry no trajectory information and are left out of
the model. -/
structure PlaneState where
  callsign : String
  country : String
  heading : ℚ
  color : String
  startLat : ℚ
  startLon : ℚ
  endLat : ℚ
  endLon : ℚ
  curveControl : Option (ℚ × ℚ)
  startTime : ℚ
  duration : ℚ
  lat : ℚ
  lon : ℚ
  progress : ℚ

/-- Per-frame position interpolation (web/app.js lines 321-336): quadratic
Bézier through the curve-control point when present, otherwise linear
interpolation `start + (end - start) * t`. -/
def posAt (st : PlaneState) (t : ℚ) : ℚ × ℚ :=
  match st.curveControl with
  | some c =>
    (quadraticBezier t st.startLat c.1 st.endLat,
     quadraticBezier t st.startLon c.2 st.endLon)
  | none =>
    (st.startLat + (st.endLat - st.startLat) * t,
     st.startLon + (st.endLon - st.startLon) * t)

/-- One scheduler step for one entity (web/app.js lines 311-337): progress is
the clamped `elapsed / duration`, easing is `linear`, position is the curved
or straight interpolation at the eased progress. -/
def advance (now : ℚ) (st : PlaneState) : PlaneState :=
  let progress := progressOf (now - st.startTime) st.duration
  let eased := linear progress
  let p := posAt st eased
  { st with progress := progress, lat := p.1, lon := p.2 }

/-- The Entity Registry: the module-level `planes` map (web/app.js line 10),
modelled as a lookup function from entity id to state. -/
def Registry : Type := String → Option PlaneState

/-- One animation tick over the registry (web/app.js lines 311-369): every
entity is advanced with the same frame timestamp `now`, entities whose new
progress has reached 1 are pushed to `toRemove` and deleted before the tick
ends. -/
def tick (now : ℚ) (planes : Registry) : Registry :=
  fun id =>
    (planes id).bind fun st =>
      let st' := advance now st
      if 1 ≤ st'.progress then none else some st'

/-- Display-attribute overwrite for an already-tracked id (web/app.js lines
404-410): only `callsign` and `country` are updated. -/
def setDisplay (st : PlaneState) (s : Sample) : PlaneState :=
  { st with callsign := s.callsign, country := s.country }

/-- Reconciling one sample (web/app.js lines 402-463): an already-tracked id
has only its display attributes overwritten (the `continue` branch); a new id
is planned by the Trajectory Planner `plan` — which encapsulates the exit
point, duration and the randomized curve decision of lines 412-459 — and
inserted. -/
def reconcileOne (plan : Sample → PlaneState) (planes : Registry)
    (s : Sample) : Registry :=
  fun id =>
    if id = s.id then
      match planes s.id with
      | some st => some (setDisplay st s)
      | none => some (plan s)
    else planes id

/-- Reconciling one whole snapshot (`for (const planeData of data.planes)`,
web/app.js line 402): fold `reconcileOne` over the samples in order.  Ids
absent from the snapshot are never touched — removal happens only in `tick`. -/
def reconcile (plan : Sample → PlaneState) (samples : List Sample)
    (planes : Registry) : Registry :=
  samples.foldl (reconcileOne plan) planes

/-- The trajectory fields fixed at creation: start point, exit point,
curve-control point, start time and duration. -/
def geomEq (a b : PlaneState) : Prop :=
  a.startLat = b.startLat ∧ a.startLon = b.startLon ∧
  a.endLat = b.endLat ∧ a.endLon = b.endLon ∧
  a.curveControl = b.curveControl ∧
  a.startTime = b.startTime ∧ a.duration = b.duration

/-- `fadeProgress` (web/app.js line 182): 0 until progress exceeds 0.6, then
`(progress - 0.6) / 0.4`. -/
def fadeProgress (progress : ℚ) : ℚ :=
  if progress > 0.6 then (progress - 0.6) / 0.4 else 0

/-- `trailStartProgress = fadeProgress * progress` (web/app.js line 185): the
progress value at which the visible trail begins. -/
def trailStartProgress (progress : ℚ) : ℚ :=
  fadeProgress progress * progress

section RegistryLemmas

lemma geomEq_refl (st : PlaneState) : geomEq st st :=
  ⟨rfl, rfl, rfl, rfl, rfl, rfl, rfl⟩

lemma geomEq_trans {a b c : PlaneState} (h1 : geomEq a b) (h2 : geomEq b c) :
    geomEq a c := by
  obtain ⟨e1, e2, e3, e4, e5, e6, e7⟩ := h1
  obtain ⟨f1, f2, f3, f4, f5, f6, f7⟩ := h2
  exact ⟨e1.trans f1, e2.trans f2, e3.trans f3, e4.trans f4, e5.trans f5,
    e6.trans f6, e7.trans f7⟩

lemma setDisplay_geomEq (st : PlaneState) (s : Sample) :
    geomEq (setDisplay st s) st :=
  ⟨rfl, rfl, rfl, rfl, rfl, rfl, rfl⟩

lemma reconcileOne_tracked (plan : Sample → PlaneState) (planes : Registry)
    (s : Sample) (id : String) (st : PlaneState) (h : planes id = some st) :
    ∃ st', reconcileOne plan planes s id = some st' ∧ geomEq st' st := by
  by_cases hid : id = s.id
  · subst hid
    refine ⟨setDisplay st s, ?_, setDisplay_geomEq st s⟩
    simp [reconcileOne, h]
  · refine ⟨st, ?_, geomEq_refl st⟩
    simp only [reconcileOne, if_neg hid]
    exact h

lemma reconcile_tracked (plan : Sample → PlaneState) (samples : List Sample)
    (planes : Registry) (id : String) (st : PlaneState)
    (h : planes id = some st) :
    ∃ st', reconcile plan samples planes id = some st' ∧ geomEq st' st := by
  induction samples generalizing planes st with
  | nil => exact ⟨st, h, geomEq_refl st⟩
  | cons s rest ih =>
    obtain ⟨st1, h1, hg1⟩ := reconcileOne_tracked plan planes s id st h
    obtain ⟨st2, h2, hg2⟩ := ih (reconcileOne plan planes s) st1 h1
    exact ⟨st2, h2, geomEq_trans hg2 hg1⟩

lemma reconcileOne_other (plan : Sample → PlaneState) (planes : Registry)
    (s : Sample) (id : String) (h : id ≠ s.id) :
    reconcileOne plan planes s id = planes id := by
  simp only [reconcileOne, if_neg h]

lemma reconcile_absent (plan : Sample → PlaneState) (samples : List Sample)
    (id : String) :
    ∀ planes : Registry, (∀ s ∈ samples, s.id ≠ id) →
      reconcile plan samples planes id = planes id := by
  induction samples with
  | nil =>
    intro planes _
    rfl
  | cons s rest ih =>
    intro planes h
    have hstep : reconcile plan (s :: rest) planes =
        reconcile plan rest (reconcileOne plan planes s) := rfl
    rw [hstep, ih _ fun x hx => h x (List.mem_cons_of_mem s hx)]
    exact reconcileOne_other plan planes s id
      fun he => h s (List.mem_cons_self s rest) he.symm

end RegistryLemmas

/-- C3: reconciling later snapshot samples for an already-tracked id never
changes the trajectory geometry or timing — start point, exit point,
curve-control point, start time, duration are all preserved; only the display
attributes (callsign/label, and in general color) may be overwritten. -/
theorem reconcile_no_midflight_reroute (plan : Sample → PlaneState)
    (samples : List Sample) (planes : Registry) (id : String)
    (st : PlaneState) (h : planes id = some st) :
    ∃ st', reconcile plan samples planes id = some st' ∧
      st'.startLat = st.startLat ∧ st'.startLon = st.startLon ∧
      st'.endLat = st.endLat ∧ st'.endLon = st.endLon ∧
      st'.curveControl = st.curveControl ∧
      st'.startTime = st.startTime ∧ st'.duration = st.duration :=
  reconcile_tracked plan samples planes id st h

/-- A concrete trajectory state for witnesses: a straight path from the home
position due east to the right edge of the default region. -/
def state0 : PlaneState :=
  { callsign := "BAW123"
    country := "United Kingdom"
    heading := 90
    color := "#64b5f6"
    startLat := 51.4229712
    startLon := -0.0541772
    endLat := 51.4229712
    endLon := 0.3958228
    curveControl := none
    startTime := 0
    duration := 1000
    lat := 51.4229712
    lon := -0.0541772
    progress := 0 }

/-- A concrete snapshot sample for witnesses, carrying the same id that
`planes0` tracks but different display attributes. -/
def sample0 : Sample :=
  { id := "4ca1fa"
    lat := 51.43
    lon := -0.05
    heading := 92
    velocity := some 220
    callsign := "BAW124"
    country := "United Kingdom"
    color := "#64b5f6" }

/-- A concrete registry for witnesses, tracking exactly the id of `sample0`. -/
def planes0 : Registry :=
  fun id => if id = "4ca1fa" then some state0 else none

/-- A concrete trajectory planner for witnesses. -/
def plan0 : Sample → PlaneState :=
  fun _ => state0

/-- Witness for C3: reconciling `sample0` against `planes0` leaves the tracked
trajectory's geometry and timing untouched. -/
theorem reconcile_no_midflight_reroute_witness :
    ∃ st', reconcile plan0 [sample0] planes0 "4ca1fa" = some st' ∧
      st'.startLat = state0.startLat ∧ st'.startLon = state0.startLon ∧
      st'.endLat = state0.endLat ∧ st'.endLon = state0.endLon ∧
      st'.curveControl = state0.curveControl ∧
      st'.startTime = state0.startTime ∧ st'.duration = state0.duration :=
  reconcile_no_midflight_reroute plan0 [sample0] planes0 "4ca1fa" state0
    (by simp [planes0])

/-- C4: for a positive duration, the per-tick progress
`min(elapsed / duration, 1)` is non-decreasing in the elapsed time, equals
exactly 1 at `elapsed = duration`, and never exceeds 1 for any elapsed. -/
theorem progress_monotone_clamped (duration : ℚ) (hd : 0 < duration) :
    (∀ e1 e2 : ℚ, e1 ≤ e2 → progressOf e1 duration ≤ progressOf e2 duration) ∧
    progressOf duration duration = 1 ∧
    (∀ e : ℚ, progressOf e duration ≤ 1) := by
  refine ⟨fun e1 e2 h => min_le_min ?_ le_rfl, ?_, fun e => min_le_right _ _⟩
  · gcongr
  · rw [progressOf, div_self hd.ne', min_self]

/-- Witness for C4 at duration 1000 ms. -/
theorem progress_monotone_clamped_witness :
    progressOf 500 1000 ≤ progressOf 750 1000 ∧
    progressOf 1000 1000 = 1 ∧ progressOf 1001 1000 ≤ 1 := by
  obtain ⟨hmono, hone, hle⟩ := progress_monotone_clamped 1000 (by norm_num)
  exact ⟨hmono 500 750 (by norm_num), hone, hle 1001⟩

/-- C5: an entity is removed from the registry exactly when its progress
reaches 1, within the same tick that computed that progress; reconciliation
never removes a tracked entity, and an id absent from the incoming snapshot
keeps its registry entry — hence its original trajectory — untouched. -/
theorem removal_only_on_completion (now : ℚ) (planes : Registry)
    (id : String) :
    (∀ st, planes id = some st →
      ((advance now st).progress < 1 →
        tick now planes id = some (advance now st)) ∧
      (1 ≤ (advance now st).progress → tick now planes id = none)) ∧
    (planes id = none → tick now planes id = none) ∧
    (∀ plan : Sample → PlaneState, ∀ samples : List Sample, ∀ st,
      planes id = some st → ∃ st', reconcile plan samples planes id = some st') ∧
    (∀ plan : Sample → PlaneState, ∀ samples : List Sample,
      (∀ s ∈ samples, s.id ≠ id) →
      reconcile plan samples planes id = planes id) := by
  refine ⟨fun st h => ⟨fun hlt => ?_, fun hge => ?_⟩, fun h => ?_,
    fun plan samples st h => ?_,
    fun plan samples h => reconcile_absent plan samples id planes h⟩
  · simp only [tick, h, Option.some_bind]
    rw [if_neg (not_le.mpr hlt)]
  · simp only [tick, h, Option.some_bind]
    rw [if_pos hge]
  · simp only [tick, h, Option.none_bind]
  · obtain ⟨st', h', -⟩ := reconcile_tracked plan samples planes id st h
    exact ⟨st', h'⟩

/-- Witness for C5: at frame time 2000 the entity of `planes0` (duration
1000, start time 0) has progress 1 and is removed by the tick; reconciling a
snapshot containing its id keeps it tracked, and reconciling a snapshot not
containing its id leaves its entry untouched. -/
theorem removal_only_on_completion_witness :
    tick 2000 planes0 "4ca1fa" = none ∧
    (∃ st', reconcile plan0 [sample0] planes0 "4ca1fa" = some st') ∧
    reconcile plan0 [] planes0 "4ca1fa" = planes0 "4ca1fa" := by
  obtain ⟨h1, -, h3, h4⟩ := removal_only_on_completion 2000 planes0 "4ca1fa"
  have hst : planes0 "4ca1fa" = some state0 := by simp [planes0]
  refine ⟨(h1 state0 hst).2 ?_, h3 plan0 [sample0] state0 hst,
    h4 plan0 [] (by simp)⟩
  show (1 : ℚ) ≤ (advance 2000 state0).progress
  simp only [advance, progressOf, state0]
  norm_num

/-- C7: over exact arithmetic the projection round-trips exactly: for any
point strictly inside the Bounding Region, `screenToLatLon` of
`latLonToScreen` returns the original geographic point, and symmetrically
`latLonToScreen` of `screenToLatLon` returns the original screen point, given
min < max on both axes and positive viewport dimensions. -/
theorem projection_round_trip (b : Bounds ℚ) (w h lat lon x y : ℚ)
    (hb1 : b.minLat < b.maxLat) (hb2 : b.minLon < b.maxLon)
    (hw : 0 < w) (hh : 0 < h)
    (_hlat1 : b.minLat < lat) (_hlat2 : lat < b.maxLat)
    (_hlon1 : b.minLon < lon) (_hlon2 : lon < b.maxLon)
    (_hx1 : 0 < x) (_hx2 : x < w) (_hy1 : 0 < y) (_hy2 : y < h) :
    screenToLatLon b w h (latLonToScreen b w h lat lon).1
      (latLonToScreen b w h lat lon).2 = (lat, lon) ∧
    latLonToScreen b w h (screenToLatLon b w h x y).1
      (screenToLatLon b w h x y).2 = (x, y) := by
  have hdLat : b.maxLat - b.minLat ≠ 0 := sub_ne_zero.mpr hb1.ne'
  have hdLon : b.maxLon - b.minLon ≠ 0 := sub_ne_zero.mpr hb2.ne'
  constructor
  · simp only [latLonToScreen, screenToLatLon, Prod.mk.injEq]
    constructor
    · field_simp
      ring
    · field_simp
      ring
  · simp only [latLonToScreen, screenToLatLon, Prod.mk.injEq]
    constructor
    · field_simp
      ring
    · field_simp
      ring

/-- Witness for C7 at the default region, an 800×480 viewport, the home
position and the screen point (100, 200). -/
theorem projection_round_trip_witness :
    screenToLatLon defaultBounds 800 480
      (latLonToScreen defaultBounds 800 480 51.4229712 (-0.0541772)).1
      (latLonToScreen defaultBounds 800 480 51.4229712 (-0.0541772)).2 =
      (51.4229712, -0.0541772) ∧
    latLonToScreen defaultBounds 800 480
      (screenToLatLon defaultBounds 800 480 100 200).1
      (screenToLatLon defaultBounds 800 480 100 200).2 = (100, 200) :=
  projection_round_trip defaultBounds 800 480 51.4229712 (-0.0541772) 100 200
    (by norm_num [defaultBounds]) (by norm_num [defaultBounds])
    (by norm_num) (by norm_num)
    (by norm_num [defaultBounds]) (by norm_num [defaultBounds])
    (by norm_num [defaultBounds]) (by norm_num [defaultBounds])
    (by norm_num) (by norm_num) (by norm_num) (by norm_num)

/-- C8: the trail-start progress is 0 for every progress at or below the 0.6
threshold, equals `((progress - 0.6) / 0.4) * progress` above it —
interpolating from 0 at the threshold to exactly the current progress at
completion (`trailStartProgress 1 = 1`) — and for progress in [0, 1] the
visible trail span is well-formed: `0 ≤ trailStartProgress p ≤ p`. -/
theorem trail_start_spec (p : ℚ) :
    (p ≤ 0.6 → trailStartProgress p = 0) ∧
    (0.6 < p → trailStartProgress p = ((p - 0.6) / 0.4) * p) ∧
    trailStartProgress 0.6 = 0 ∧ trailStartProgress 1 = 1 ∧
    (0 ≤ p → p ≤ 1 → 0 ≤ trailStartProgress p ∧ trailStartProgress p ≤ p) := by
  refine ⟨fun hle => ?_, fun hgt => ?_, ?_, ?_, fun h0 h1 => ?_⟩
  · rw [trailStartProgress, fadeProgress, if_neg (not_lt.mpr hle), zero_mul]
  · rw [trailStartProgress, fadeProgress, if_pos hgt]
  · norm_num [trailStartProgress, fadeProgress]
  · norm_num [trailStartProgress, fadeProgress]
  · rw [trailStartProgress, fadeProgress]
    by_cases hgt : p > 0.6
    · rw [if_pos hgt]
      have hf0 : 0 ≤ (p - 0.6) / 0.4 := by
        apply div_nonneg <;> linarith
      have hf1 : (p - 0.6) / 0.4 ≤ 1 := by
        rw [div_le_one (by norm_num : (0:ℚ) < 0.4)]
        linarith
      constructor
      · exact mul_nonneg hf0 h0
      · calc (p - 0.6) / 0.4 * p ≤ 1 * p :=
            mul_le_mul_of_nonneg_right hf1 h0
          _ = p := one_mul p
    · rw [if_neg hgt, zero_mul]
      exact ⟨le_rfl, h0⟩

/-- Witness for C8 at progress 0.8 (and the closed threshold/completion
values). -/
theorem trail_start_spec_witness :
    trailStartProgress 0.8 = ((0.8 - 0.6) / 0.4) * 0.8 ∧
    trailStartProgress 0.6 = 0 ∧ trailStartProgress 1 = 1 ∧
    0 ≤ trailStartProgress 0.8 ∧ trailStartProgress 0.8 ≤ 0.8 := by
  obtain ⟨-, h2, h3, h4, h5⟩ := trail_start_spec 0.8
  obtain ⟨hlo, hhi⟩ := h5 (by norm_num) (by norm_num)
  exact ⟨h2 (by norm_num), h3, h4, hlo, hhi⟩

/-- C9: a trajectory with no curve-control point, evaluated by the per-frame
interpolation at progress 0.5, yields exactly the geographic midpoint of the
start and exit points. -/
theorem straight_path_midpoint (st : PlaneState)
    (h : st.curveControl = none) :
    posAt st (1 / 2) =
      ((st.startLat + st.endLat) / 2, (st.startLon + st.endLon) / 2) := by
  simp only [posAt, h, Prod.mk.injEq]
  constructor <;> ring

/-- Witness for C9 at the concrete straight trajectory `state0`. -/
theorem straight_path_midpoint_witness :
    posAt state0 (1 / 2) =
      ((state0.startLat + state0.endLat) / 2,
       (state0.startLon + state0.endLon) / 2) :=
  straight_path_midpoint state0 rfl

/-- C10: endpoint identities of the interpolation: the quadratic Bézier
satisfies B(0) = p0 and B(1) = p2 for any control point, and the per-frame
position (curved or straight) equals the start point at progress 0 and
exactly the computed exit point at progress 1. -/
theorem trajectory_endpoint_identities (p0 p1 p2 : ℚ) (st : PlaneState) :
    quadraticBezier 0 p0 p1 p2 = p0 ∧ quadraticBezier 1 p0 p1 p2 = p2 ∧
    posAt st 0 = (st.startLat, st.startLon) ∧
    posAt st 1 = (st.endLat, st.endLon) := by
  refine ⟨by rw [quadraticBezier]; ring, by rw [quadraticBezier]; ring, ?_, ?_⟩
  · cases hc : st.curveControl with
    | some c =>
      simp only [posAt, hc, quadraticBezier, Prod.mk.injEq]
      constructor <;> ring
    | none =>
      simp only [posAt, hc, Prod.mk.injEq]
      constructor <;> ring
  · cases hc : st.curveControl with
    | some c =>
      simp only [posAt, hc, quadraticBezier, Prod.mk.injEq]
      constructor <;> ring
    | none =>
      simp only [posAt, hc, Prod.mk.injEq]
      constructor <;> ring

end Skylight
